import Mathlib

/-!
Verification development for the spanner-graph-notebook core:
schema key resolution (`schema_manager.py`), traversal query construction and
the request boundary (`graph_server.py`), and the graph assembler
(`conversion.py`, modelled from the specification where the module itself is
absent from the sources).

Python dictionaries whose keys are fixed field names are embedded as Lean
structures; JSON-like dictionaries with dynamic keys are embedded as
association lists with first-match lookup and replace-or-append update,
mirroring CPython dict semantics for the operations actually used
(`d[k] = v`, `d.get(k, default)`, `k in d`).
-/

namespace SpannerGraphs

/-! ## Schema manager (`spanner_graphs/schema_manager.py`) -/

/-- One entry of a node table's `propertyDefinitions` list. -/
structure PropertyDef where
  propertyDeclarationName : String
  valueExpressionSql : String
  deriving Repr, DecidableEq

/-- One entry of the schema's `nodeTables` list. -/
structure NodeTable where
  labelNames : List String
  keyColumns : List String
  propertyDefinitions : List PropertyDef
  deriving Repr, DecidableEq

/-- Association-list lookup, first match wins (CPython dict lookup). -/
def dict_find (m : List (String × List String)) (k : String) : Option (List String) :=
  (m.find? (fun p => p.1 == k)).map (fun p => p.2)

/-- Dict assignment `m[k] = v`: replace the value when the key is present,
append a fresh binding otherwise. -/
def dict_assign (m : List (String × List String)) (k : String) (v : List String) :
    List (String × List String) :=
  if m.any (fun p => p.1 == k) then
    m.map (fun p => if p.1 == k then (k, v) else p)
  else
    m ++ [(k, v)]

/-- `SchemaManager._find_unique_node_labels`, membership form: the label count
computed by the loop counts exactly the tables whose `labelNames` is the
one-element list `[l]`, and the set keeps the labels whose count is `1`. -/
def unique_node_label (ts : List NodeTable) (l : String) : Bool :=
  ts.countP (fun t => t.labelNames == [l]) == 1

/-- Inner loop of `SchemaManager._build_node_mappings`: scan the property
definitions in order and stop at the first whose `valueExpressionSql` equals
the key column (the `break`). -/
def find_matching_prop : List PropertyDef → String → Option PropertyDef
  | [], _ => none
  | p :: ps, keyColumn =>
    if p.valueExpressionSql == keyColumn then some p else find_matching_prop ps keyColumn

/-- Key-property accumulation loop of `SchemaManager._build_node_mappings`:
for each key column in order, append the declaration name of the first
matching property definition; append nothing when no definition matches. -/
def key_property_names (t : NodeTable) : List String :=
  t.keyColumns.foldl
    (fun acc keyColumn =>
      match find_matching_prop t.propertyDefinitions keyColumn with
      | some p => acc ++ [p.propertyDeclarationName]
      | none => acc)
    []

/-- One iteration of the `_build_node_mappings` outer loop: tables with a
label count other than one are skipped, the rest assign their key-property
list to their sole label. -/
def build_step (m : List (String × List String)) (t : NodeTable) :
    List (String × List String) :=
  match t.labelNames with
  | [l] => dict_assign m l (key_property_names t)
  | _ => m

/-- `SchemaManager._build_node_mappings`. -/
def build_node_mappings (ts : List NodeTable) : List (String × List String) :=
  ts.foldl build_step []

/-- `graph_entities.Node`, restricted to the fields the schema manager reads. -/
structure Node where
  labels : List String
  properties : List (String × String)
  deriving Repr, DecidableEq

/-- `graph_entities.Edge`: a value that fails the `isinstance(obj, Node)`
check of `get_key_property_names`. -/
structure Edge where
  labels : List String
  properties : List (String × String)
  source : String
  destination : String
  deriving Repr, DecidableEq

/-- An input handed to `SchemaManager.get_key_property_names`. -/
inductive GraphObj where
  | gnode (n : Node)
  | gedge (e : Edge)
  deriving Repr, DecidableEq

/-- `SchemaManager.get_key_property_names`: a non-`Node` input raises
`TypeError("node expected")`; a node returns its sole label's mapping entry
(default `[]`) when that label is unique, and `[]` otherwise. -/
def get_key_property_names (ts : List NodeTable) : GraphObj → Except String (List String)
  | .gnode n =>
    match n.labels with
    | [l] =>
      if unique_node_label ts l then
        .ok ((dict_find (build_node_mappings ts) l).getD [])
      else
        .ok []
    | _ => .ok []
  | .gedge _ => .error "node expected"

/-! ## Traversal query construction (`spanner_graphs/graph_server.py`) -/

/-- Path pattern chosen by `execute_node_expansion` from the direction flag. -/
def path_pattern (outgoing : Bool) : String :=
  if outgoing then "(n)-[e]->(d)" else "(n)<-[e]-(d)"

/-- The query text interpolated by `execute_node_expansion` before it is
handed to `execute_query`. -/
def expansion_query (graph uid nodeKeyPropertyName nodeKeyPropertyValue : String)
    (outgoing : Bool) : String :=
  "\n        GRAPH " ++ graph ++
  "\n        LET uid = \"" ++ uid ++
  "\"\n        MATCH (n)\n        WHERE n." ++ nodeKeyPropertyName ++
  (" = \"" ++ nodeKeyPropertyValue ++ "\"") ++
  " and STRING(TO_JSON(n).identifier) = uid\n        RETURN n\n\n        NEXT\n\n        MATCH p1 = " ++
  path_pattern outgoing ++
  "\n        RETURN TO_JSON(p1) as p1, TO_JSON(n) as n\n        "

/-- The scalar type codes recognized by the expansion flow
(`google.cloud.spanner_v1.TypeCode` members named in `PROPERTY_TYPE_MAP`). -/
inductive PropertyType where
  | BOOL | BYTES | DATE | ENUM | INT64 | NUMERIC | FLOAT32 | FLOAT64 | STRING | TIMESTAMP
  deriving Repr, DecidableEq

/-- Modelled from the spec: `PROPERTY_TYPE_MAP` of `graph_server.py`, the table
from recognized scalar type names to type codes, keyed case-insensitively via
upper-cased names. The module that defines it is absent from the sources; its
unit tests (`test_graph_server.py`) and §6 of the spec fix its contents. -/
def property_type_map : List (String × PropertyType) :=
  [("BOOL", .BOOL), ("BYTES", .BYTES), ("DATE", .DATE), ("ENUM", .ENUM),
   ("INT64", .INT64), ("NUMERIC", .NUMERIC), ("FLOAT32", .FLOAT32),
   ("FLOAT64", .FLOAT64), ("STRING", .STRING), ("TIMESTAMP", .TIMESTAMP)]

/-- Python's `str.upper()` for the ASCII type names compared here. -/
def str_upper (s : String) : String := ⟨s.data.map Char.toUpper⟩

/-- Modelled from the spec: `validate_property_type` of `graph_server.py`
(absent from the sources; behavior fixed by
`test_validate_property_type_valid_types` / `..._invalid_types` and §4.4 of
the spec). An absent or empty name raises `Property type must be provided`;
an unrecognized name raises a message naming the allowed set; a recognized
name (case-insensitive) yields its type code. -/
def validate_property_type : Option String → Except String PropertyType
  | none => .error "Property type must be provided"
  | some s =>
    if s == "" then .error "Property type must be provided"
    else
      match (property_type_map.find? (fun p => p.1 == str_upper s)).map (fun p => p.2) with
      | some t => .ok t
      | none =>
        .error ("Invalid property type: " ++ s ++
          ". Allowed types are: BOOL, BYTES, DATE, ENUM, FLOAT32, FLOAT64, INT64, NUMERIC, STRING, TIMESTAMP")

/-- Modelled from the spec: the literal-formatting rule of the typed
`execute_node_expansion` (absent from the sources; behavior fixed by
`test_property_value_formatting` and §4.4 of the spec): values of numeric
types and `BOOL` are interpolated unquoted, every other type code — and an
absent type — yields a quoted string literal. -/
def format_property_value (t : Option PropertyType) (v : String) : String :=
  match t with
  | some .INT64 => v
  | some .NUMERIC => v
  | some .FLOAT32 => v
  | some .FLOAT64 => v
  | some .BOOL => v
  | _ => "\"" ++ v ++ "\""

/-- Modelled from the spec: the query text built by the typed
`execute_node_expansion` (absent from the sources), identical to
`expansion_query` except that the key-property literal in the `WHERE` clause
is produced by `format_property_value`. -/
def expansion_query_typed (graph uid nodeKeyPropertyName nodeKeyPropertyValue : String)
    (outgoing : Bool) (t : Option PropertyType) : String :=
  "\n        GRAPH " ++ graph ++
  "\n        LET uid = \"" ++ uid ++
  "\"\n        MATCH (n)\n        WHERE n." ++ nodeKeyPropertyName ++
  (" = " ++ format_property_value t nodeKeyPropertyValue ++ " and ") ++
  ("STRING(TO_JSON(n).identifier) = uid\n        RETURN n\n\n        NEXT\n\n        MATCH p1 = " ++
   path_pattern outgoing ++
   "\n        RETURN TO_JSON(p1) as p1, TO_JSON(n) as n\n        ")

/-- Modelled from the spec: the expansion flow with an optional declared type
name. A supplied name is validated first (`validate_property_type`) and a
validation failure propagates instead of query text; an absent name skips
validation and the builder defaults to quoted-string formatting. -/
def node_expansion_typed (graph uid nodeKeyPropertyName nodeKeyPropertyValue : String)
    (outgoing : Bool) : Option String → Except String String
  | none =>
    .ok (expansion_query_typed graph uid nodeKeyPropertyName nodeKeyPropertyValue outgoing none)
  | some s =>
    match validate_property_type (some s) with
    | .error e => .error e
    | .ok t =>
      .ok (expansion_query_typed graph uid nodeKeyPropertyName nodeKeyPropertyValue outgoing (some t))

/-! ## Request boundary (`GraphServerHandler`) -/

/-- The JSON body of a node-expansion request: `data.get(field)` for each of
the required field names (`none` embeds both an absent key and a JSON
`null`). -/
structure ExpansionRequest where
  project : Option String
  instanceName : Option String
  database : Option String
  graph : Option String
  uid : Option String
  node_key_property_name : Option String
  node_key_property_value : Option String
  direction : Option String
  deriving Repr, DecidableEq

/-- `missing_fields` of `handle_post_node_expansion`: the required field names
whose value is absent, in declaration order. -/
def missing_fields (d : ExpansionRequest) : List String :=
  ([("project", d.project), ("instance", d.instanceName), ("database", d.database),
    ("graph", d.graph), ("uid", d.uid),
    ("node_key_property_name", d.node_key_property_name),
    ("node_key_property_value", d.node_key_property_value),
    ("direction", d.direction)]).filterMap
    (fun p => if p.2.isNone then some p.1 else none)

/-- Outcome of a handler: a structured error payload (written by
`do_error_response` as the JSON object with single key `error`), or a data
response carrying the result of the query the handler went on to execute. -/
inductive HandlerResult where
  | errorResponse (msg : String)
  | dataResponse (query : String)
  deriving Repr, DecidableEq

/-- `GraphServerHandler.handle_post_node_expansion`: report missing required
fields, then reject a direction other than `INCOMING`/`OUTGOING`, and only
then build and execute the expansion query. -/
def handle_post_node_expansion (d : ExpansionRequest) : HandlerResult :=
  if !(missing_fields d).isEmpty then
    .errorResponse ("Missing required fields: " ++ String.intercalate ", " (missing_fields d))
  else
    match d.direction with
    | some dir =>
      if dir == "INCOMING" || dir == "OUTGOING" then
        .dataResponse (expansion_query (d.graph.getD "") (d.uid.getD "")
          ((d.node_key_property_name).getD "") ((d.node_key_property_value).getD "")
          (dir == "OUTGOING"))
      else
        .errorResponse ("Invalid direction: must be INCOMING or OUTGOING, got \"" ++ dir ++ "\"")
    | none =>
      .errorResponse ("Missing required fields: " ++ String.intercalate ", " (missing_fields d))

/-! ## POST dispatch (`GraphServer.endpoints`, `GraphServerHandler.do_POST`) -/

/-- The `GraphServer.endpoints` class dictionary. -/
def endpoints : List (String × String) :=
  [("get_ping", "/get_ping"), ("post_ping", "/post_ping"),
   ("post_query", "/post_query"), ("post_node_expansion", "/post_node_expansion")]

/-- Python subscript `endpoints[k]`: the value when the key is present, a
`KeyError` otherwise. -/
def dict_subscript (m : List (String × String)) (k : String) : Except String String :=
  match m.find? (fun p => p.1 == k) with
  | some p => .ok p.2
  | none => .error ("KeyError: " ++ k)

/-- The handler a POST dispatch selects; `noResponse` embeds falling off the
end of the `elif` chain without writing a response. -/
inductive PostAction where
  | ping | query | nodeExpansion | nodeExpansionSingleEdge | noResponse
  deriving Repr, DecidableEq

/-- `GraphServerHandler.do_POST`: each `elif` guard first subscripts the
`endpoints` dictionary (so a missing key raises before any comparison), then
compares the request path against the route. -/
def do_POST (path : String) : Except String PostAction :=
  match dict_subscript endpoints "post_ping" with
  | .error e => .error e
  | .ok r1 =>
    if path == r1 then .ok .ping
    else
      match dict_subscript endpoints "post_query" with
      | .error e => .error e
      | .ok r2 =>
        if path == r2 then .ok .query
        else
          match dict_subscript endpoints "post_node_expansion" with
          | .error e => .error e
          | .ok r3 =>
            if path == r3 then .ok .nodeExpansion
            else
              match dict_subscript endpoints "post_node_expansion_single_edge" with
              | .error e => .error e
              | .ok r4 =>
                if path == r4 then .ok .nodeExpansionSingleEdge
                else .ok .noResponse

/-! ## Graph assembler (`spanner_graphs/conversion.py`, modelled from the spec) -/

/-- A decoded `node` record envelope (§3 of the spec). -/
structure NodeRec where
  identifier : String
  labels : List String
  properties : List (String × String)
  deriving Repr, DecidableEq

/-- A decoded `edge` record envelope (§3 of the spec). -/
structure EdgeRec where
  identifier : String
  source_node_identifier : String
  destination_node_identifier : String
  labels : List String
  properties : List (String × String)
  deriving Repr, DecidableEq

/-- A decoded record, discriminated by its `kind` field; a record whose
`kind` is neither variant is ignored by the assembler. -/
inductive Envelope where
  | nodeEnv (n : NodeRec)
  | edgeEnv (e : EdgeRec)
  | otherEnv
  deriving Repr, DecidableEq

/-- Modelled from the spec: the node half of the graph assembler of
`conversion.py` (`prepare_data_for_graphing`; the module is absent from the
sources, its behavior fixed by §4.2 of the spec and
`test_prepare_data_for_graphing`). Records are pooled in order, nodes are
keyed by `identifier`, the first occurrence of an identifier wins and later
duplicates are dropped without error. -/
def assemble_nodes : List Envelope → List (String × NodeRec)
  | [] => []
  | .nodeEnv n :: es =>
    (n.identifier, n) :: (assemble_nodes es).filter (fun p => p.1 != n.identifier)
  | _ :: es => assemble_nodes es

/-- Modelled from the spec: the edge half of the graph assembler, symmetric
to `assemble_nodes` (edges are likewise deduplicated strictly by
`identifier`, first seen wins). -/
def assemble_edges : List Envelope → List (String × EdgeRec)
  | [] => []
  | .edgeEnv e :: es =>
    (e.identifier, e) :: (assemble_edges es).filter (fun p => p.1 != e.identifier)
  | _ :: es => assemble_edges es

/-- First node record with the given identifier in a pooled record list. -/
def first_node_rec (es : List Envelope) (i : String) : Option NodeRec :=
  es.findSome? (fun env =>
    match env with
    | .nodeEnv n => if n.identifier == i then some n else none
    | _ => none)

/-- First edge record with the given identifier in a pooled record list. -/
def first_edge_rec (es : List Envelope) (i : String) : Option EdgeRec :=
  es.findSome? (fun env =>
    match env with
    | .edgeEnv e => if e.identifier == i then some e else none
    | _ => none)

/-- Lookup by key in an assembled collection. -/
def alookup {α : Type} (m : List (String × α)) (i : String) : Option α :=
  (m.find? (fun p => p.1 == i)).map (fun p => p.2)

/-- Number of entries carrying a key in an assembled collection. -/
def akeyCount {α : Type} (m : List (String × α)) (i : String) : Nat :=
  m.countP (fun p => p.1 == i)

/-! ## Generic helpers used by the statements and proofs -/

/-- `chars_begin needle hay`: the character list `hay` starts with `needle`. -/
def chars_begin : List Char → List Char → Bool
  | [], _ => true
  | _ :: _, [] => false
  | c :: cs, d :: ds => c == d && chars_begin cs ds

/-- `chars_contain needle hay`: `needle` occurs contiguously inside `hay`. -/
def chars_contain (needle : List Char) : List Char → Bool
  | [] => needle.isEmpty
  | d :: ds => chars_begin needle (d :: ds) || chars_contain needle ds

/-- `str_contains hay needle`: `needle` is a contiguous substring of `hay`. -/
def str_contains (hay needle : String) : Bool :=
  chars_contain needle.data hay.data

/-- The last table of the list whose `labelNames` is exactly `[l]` (the table
whose dict assignment in `_build_node_mappings` survives). -/
def last_single_table : List NodeTable → String → Option NodeTable
  | [], _ => none
  | t :: ts, l =>
    match last_single_table ts l with
    | some t' => some t'
    | none => if t.labelNames == [l] then some t else none

/-! # Theorems -/

/-! ## String containment lemmas -/

theorem str_data_append (a b : String) : (a ++ b).data = a.data ++ b.data := rfl

theorem chars_begin_append (b c : List Char) : chars_begin b (b ++ c) = true := by
  induction b with
  | nil => rfl
  | cons x xs ih => simp [chars_begin, ih]

theorem chars_begin_extend (n : List Char) :
    ∀ h s, chars_begin n h = true → chars_begin n (h ++ s) = true := by
  induction n with
  | nil => intro h s _; rfl
  | cons c cs ih =>
    intro h s hb
    cases h with
    | nil => simp [chars_begin] at hb
    | cons d ds =>
      simp only [chars_begin, Bool.and_eq_true] at hb
      simp only [List.cons_append, chars_begin, Bool.and_eq_true]
      exact ⟨hb.1, ih ds s hb.2⟩

theorem chars_contain_append_left (n : List Char) :
    ∀ a h, chars_contain n h = true → chars_contain n (a ++ h) = true := by
  intro a
  induction a with
  | nil => intro h hh; simpa using hh
  | cons x xs ih =>
    intro h hh
    show (chars_begin n (x :: (xs ++ h)) || chars_contain n (xs ++ h)) = true
    rw [ih h hh, Bool.or_true]

theorem chars_contain_extend (n : List Char) :
    ∀ h s, chars_contain n h = true → chars_contain n (h ++ s) = true := by
  intro h
  induction h with
  | nil =>
    intro s hh
    cases n with
    | nil =>
      cases s with
      | nil => rfl
      | cons d ds => rfl
    | cons c cs => simp [chars_contain] at hh
  | cons d ds ih =>
    intro s hh
    show (chars_begin n (d :: (ds ++ s)) || chars_contain n (ds ++ s)) = true
    rw [Bool.or_eq_true]
    have hh' : (chars_begin n (d :: ds) || chars_contain n ds) = true := hh
    rw [Bool.or_eq_true] at hh'
    rcases hh' with hb | hc
    · exact Or.inl (chars_begin_extend n (d :: ds) s hb)
    · exact Or.inr (ih s hc)

theorem chars_contain_self_append (n c : List Char) : chars_contain n (n ++ c) = true := by
  cases n with
  | nil =>
    cases c with
    | nil => rfl
    | cons d ds => rfl
  | cons x xs =>
    show (chars_begin (x :: xs) ((x :: xs) ++ c) || chars_contain (x :: xs) (xs ++ c)) = true
    rw [chars_begin_append, Bool.true_or]

theorem str_contains_right (h s n : String) (hc : str_contains h n = true) :
    str_contains (h ++ s) n = true := by
  show chars_contain n.data (h ++ s).data = true
  rw [str_data_append]
  exact chars_contain_extend n.data h.data s.data hc

theorem str_contains_chunk (a b : String) : str_contains (a ++ b) b = true := by
  show chars_contain b.data (a ++ b).data = true
  rw [str_data_append]
  apply chars_contain_append_left
  simpa using chars_contain_self_append b.data []

/-! ## Association-list lemmas for the assembler -/

theorem find?_filter_ne {α : Type} (m : List (String × α)) (k i : String) (h : ¬ k = i) :
    (m.filter (fun p => p.1 != k)).find? (fun p => p.1 == i) = m.find? (fun p => p.1 == i) := by
  induction m with
  | nil => rfl
  | cons p ps ih =>
    by_cases hp : p.1 = k
    · have h2 : (p.1 == i) = false := by simp [hp]; exact h
      have h1 : (p.1 != k) = false := by simp [hp]
      simp [List.filter_cons, h1, List.find?_cons, h2, ih]
    · have h1 : (p.1 != k) = true := by simp [hp]
      by_cases hpi : p.1 = i
      · have h2 : (p.1 == i) = true := by simp [hpi]
        simp [List.filter_cons, h1, List.find?_cons, h2]
      · have h2 : (p.1 == i) = false := by simp [hpi]
        simp [List.filter_cons, h1, List.find?_cons, h2, ih]

theorem find?_filter_self {α : Type} (m : List (String × α)) (i : String) :
    (m.filter (fun p => p.1 != i)).find? (fun p => p.1 == i) = none := by
  induction m with
  | nil => rfl
  | cons p ps ih =>
    by_cases hp : p.1 = i
    · have h1 : (p.1 != i) = false := by simp [hp]
      simp [List.filter_cons, h1, ih]
    · have h1 : (p.1 != i) = true := by simp [hp]
      have h2 : (p.1 == i) = false := by simp [hp]
      simp [List.filter_cons, h1, List.find?_cons, h2, ih]

theorem countP_filter_ne {α : Type} (m : List (String × α)) (k i : String) (h : ¬ k = i) :
    (m.filter (fun p => p.1 != k)).countP (fun p => p.1 == i) = m.countP (fun p => p.1 == i) := by
  induction m with
  | nil => rfl
  | cons p ps ih =>
    by_cases hp : p.1 = k
    · have h2 : (p.1 == i) = false := by simp [hp]; exact h
      have h1 : (p.1 != k) = false := by simp [hp]
      simp [List.filter_cons, h1, List.countP_cons, h2, ih]
    · have h1 : (p.1 != k) = true := by simp [hp]
      simp [List.filter_cons, h1, List.countP_cons, ih]

theorem countP_filter_self {α : Type} (m : List (String × α)) (i : String) :
    (m.filter (fun p => p.1 != i)).countP (fun p => p.1 == i) = 0 := by
  induction m with
  | nil => rfl
  | cons p ps ih =>
    by_cases hp : p.1 = i
    · have h1 : (p.1 != i) = false := by simp [hp]
      simp [List.filter_cons, h1, ih]
    · have h1 : (p.1 != i) = true := by simp [hp]
      have h2 : (p.1 == i) = false := by simp [hp]
      simp [List.filter_cons, h1, List.countP_cons, h2, ih]

/-! ## Assembler characterization -/

theorem assemble_nodes_count (es : List Envelope) (i : String) :
    akeyCount (assemble_nodes es) i = if (first_node_rec es i).isSome then 1 else 0 := by
  induction es with
  | nil => rfl
  | cons e es ih =>
    cases e with
    | nodeEnv n =>
      by_cases hn : n.identifier = i
      · subst hn
        have hfs : first_node_rec (Envelope.nodeEnv n :: es) n.identifier = some n := by
          simp [first_node_rec, List.findSome?_cons]
        rw [hfs]
        show List.countP (fun p => p.1 == n.identifier)
          ((n.identifier, n) :: (assemble_nodes es).filter (fun p => p.1 != n.identifier)) = 1
        rw [List.countP_cons, countP_filter_self]
        simp
      · have hbeq : (n.identifier == i) = false := by simp [hn]
        have hfs : first_node_rec (Envelope.nodeEnv n :: es) i = first_node_rec es i := by
          simp [first_node_rec, List.findSome?_cons, hn]
        rw [hfs]
        show List.countP (fun p => p.1 == i)
          ((n.identifier, n) :: (assemble_nodes es).filter (fun p => p.1 != n.identifier)) = _
        rw [List.countP_cons, countP_filter_ne _ _ _ hn]
        simp only [hbeq, if_false, Nat.add_zero]
        exact ih
    | edgeEnv e0 =>
      have hfs : first_node_rec (Envelope.edgeEnv e0 :: es) i = first_node_rec es i := by
        simp [first_node_rec, List.findSome?_cons]
      rw [hfs]
      exact ih
    | otherEnv =>
      have hfs : first_node_rec (Envelope.otherEnv :: es) i = first_node_rec es i := by
        simp [first_node_rec, List.findSome?_cons]
      rw [hfs]
      exact ih

theorem assemble_nodes_lookup (es : List Envelope) (i : String) :
    alookup (assemble_nodes es) i = first_node_rec es i := by
  induction es with
  | nil => rfl
  | cons e es ih =>
    cases e with
    | nodeEnv n =>
      by_cases hn : n.identifier = i
      · subst hn
        have hfs : first_node_rec (Envelope.nodeEnv n :: es) n.identifier = some n := by
          simp [first_node_rec, List.findSome?_cons]
        rw [hfs]
        show (List.find? (fun p => p.1 == n.identifier)
          ((n.identifier, n) :: (assemble_nodes es).filter
            (fun p => p.1 != n.identifier))).map (fun p => p.2) = some n
        simp [List.find?_cons]
      · have hbeq : (n.identifier == i) = false := by simp [hn]
        have hfs : first_node_rec (Envelope.nodeEnv n :: es) i = first_node_rec es i := by
          simp [first_node_rec, List.findSome?_cons, hn]
        rw [hfs]
        show (List.find? (fun p => p.1 == i)
          ((n.identifier, n) :: (assemble_nodes es).filter
            (fun p => p.1 != n.identifier))).map (fun p => p.2) = _
        rw [List.find?_cons]
        simp only [hbeq]
        rw [find?_filter_ne _ _ _ hn]
        exact ih
    | edgeEnv e0 =>
      have hfs : first_node_rec (Envelope.edgeEnv e0 :: es) i = first_node_rec es i := by
        simp [first_node_rec, List.findSome?_cons]
      rw [hfs]
      exact ih
    | otherEnv =>
      have hfs : first_node_rec (Envelope.otherEnv :: es) i = first_node_rec es i := by
        simp [first_node_rec, List.findSome?_cons]
      rw [hfs]
      exact ih

theorem assemble_edges_count (es : List Envelope) (i : String) :
    akeyCount (assemble_edges es) i = if (first_edge_rec es i).isSome then 1 else 0 := by
  induction es with
  | nil => rfl
  | cons e es ih =>
    cases e with
    | edgeEnv e0 =>
      by_cases hn : e0.identifier = i
      · subst hn
        have hfs : first_edge_rec (Envelope.edgeEnv e0 :: es) e0.identifier = some e0 := by
          simp [first_edge_rec, List.findSome?_cons]
        rw [hfs]
        show List.countP (fun p => p.1 == e0.identifier)
          ((e0.identifier, e0) :: (assemble_edges es).filter (fun p => p.1 != e0.identifier)) = 1
        rw [List.countP_cons, countP_filter_self]
        simp
      · have hbeq : (e0.identifier == i) = false := by simp [hn]
        have hfs : first_edge_rec (Envelope.edgeEnv e0 :: es) i = first_edge_rec es i := by
          simp [first_edge_rec, List.findSome?_cons, hn]
        rw [hfs]
        show List.countP (fun p => p.1 == i)
          ((e0.identifier, e0) :: (assemble_edges es).filter (fun p => p.1 != e0.identifier)) = _
        rw [List.countP_cons, countP_filter_ne _ _ _ hn]
        simp only [hbeq, if_false, Nat.add_zero]
        exact ih
    | nodeEnv n =>
      have hfs : first_edge_rec (Envelope.nodeEnv n :: es) i = first_edge_rec es i := by
        simp [first_edge_rec, List.findSome?_cons]
      rw [hfs]
      exact ih
    | otherEnv =>
      have hfs : first_edge_rec (Envelope.otherEnv :: es) i = first_edge_rec es i := by
        simp [first_edge_rec, List.findSome?_cons]
      rw [hfs]
      exact ih

theorem assemble_edges_lookup (es : List Envelope) (i : String) :
    alookup (assemble_edges es) i = first_edge_rec es i := by
  induction es with
  | nil => rfl
  | cons e es ih =>
    cases e with
    | edgeEnv e0 =>
      by_cases hn : e0.identifier = i
      · subst hn
        have hfs : first_edge_rec (Envelope.edgeEnv e0 :: es) e0.identifier = some e0 := by
          simp [first_edge_rec, List.findSome?_cons]
        rw [hfs]
        show (List.find? (fun p => p.1 == e0.identifier)
          ((e0.identifier, e0) :: (assemble_edges es).filter
            (fun p => p.1 != e0.identifier))).map (fun p => p.2) = some e0
        simp [List.find?_cons]
      · have hbeq : (e0.identifier == i) = false := by simp [hn]
        have hfs : first_edge_rec (Envelope.edgeEnv e0 :: es) i = first_edge_rec es i := by
          simp [first_edge_rec, List.findSome?_cons, hn]
        rw [hfs]
        show (List.find? (fun p => p.1 == i)
          ((e0.identifier, e0) :: (assemble_edges es).filter
            (fun p => p.1 != e0.identifier))).map (fun p => p.2) = _
        rw [List.find?_cons]
        simp only [hbeq]
        rw [find?_filter_ne _ _ _ hn]
        exact ih
    | nodeEnv n =>
      have hfs : first_edge_rec (Envelope.nodeEnv n :: es) i = first_edge_rec es i := by
        simp [first_edge_rec, List.findSome?_cons]
      rw [hfs]
      exact ih
    | otherEnv =>
      have hfs : first_edge_rec (Envelope.otherEnv :: es) i = first_edge_rec es i := by
        simp [first_edge_rec, List.findSome?_cons]
      rw [hfs]
      exact ih

/-! ## Dict lemmas for the node-mapping construction -/

theorem dict_find_map_replace (ps : List (String × List String)) (k k' : String)
    (v : List String) (hne : ¬ k' = k) :
    dict_find (ps.map (fun p => if p.1 == k then (k, v) else p)) k' = dict_find ps k' := by
  have hkk : ¬ k = k' := fun h => hne h.symm
  induction ps with
  | nil => rfl
  | cons p ps ih =>
    by_cases hp : p.1 = k
    · simp only [List.map_cons]
      simp [dict_find, List.find?_cons, hp, hkk] at ih ⊢
      exact ih
    · by_cases hpk : p.1 = k'
      · simp only [List.map_cons]
        simp [dict_find, List.find?_cons, hp, hpk, hne]
      · simp only [List.map_cons]
        simp [dict_find, List.find?_cons, hp, hpk] at ih ⊢
        exact ih

theorem dict_find_replace_hit (ps : List (String × List String)) (k : String)
    (v : List String) :
    ps.any (fun p => p.1 == k) = true →
      dict_find (ps.map (fun p => if p.1 == k then (k, v) else p)) k = some v := by
  induction ps with
  | nil => intro hmem; simp at hmem
  | cons p ps ih =>
    intro hmem
    by_cases hp : p.1 = k
    · simp only [List.map_cons]
      simp [dict_find, List.find?_cons, hp]
    · have hmem' : ps.any (fun p => p.1 == k) = true := by
        simp [List.any_cons, hp] at hmem
        simpa using hmem
      have ih' := ih hmem'
      simp only [List.map_cons]
      simp [dict_find, List.find?_cons, hp] at ih' ⊢
      exact ih'

theorem dict_find_append_one (ps : List (String × List String)) (k k' : String)
    (v : List String) :
    dict_find (ps ++ [(k, v)]) k' =
      match dict_find ps k' with
      | some w => some w
      | none => if k' = k then some v else none := by
  induction ps with
  | nil =>
    by_cases hk : k' = k
    · subst hk
      simp [dict_find, List.find?_cons]
    · have hkk : ¬ k = k' := fun h => hk h.symm
      simp [dict_find, List.find?_cons, hk, hkk]
  | cons p ps ih =>
    by_cases hp : p.1 = k'
    · simp only [List.cons_append]
      simp [dict_find, List.find?_cons, hp]
    · simp only [List.cons_append]
      simp [dict_find, List.find?_cons, hp] at ih ⊢
      exact ih

theorem dict_find_assign (m : List (String × List String)) (k k' : String) (v : List String) :
    dict_find (dict_assign m k v) k' = if k' = k then some v else dict_find m k' := by
  unfold dict_assign
  by_cases hmem : m.any (fun p => p.1 == k) = true
  · rw [if_pos hmem]
    by_cases hk : k' = k
    · subst hk
      rw [if_pos rfl]
      exact dict_find_replace_hit m k' v hmem
    · rw [if_neg hk]
      exact dict_find_map_replace m k k' v hk
  · rw [if_neg hmem]
    rw [dict_find_append_one]
    by_cases hk : k' = k
    · subst hk
      have hnone : dict_find m k' = none := by
        have hfound : m.find? (fun p => p.1 == k') = none :=
          List.find?_eq_none.mpr (fun p hp hbp => hmem (List.any_eq_true.mpr ⟨p, hp, hbp⟩))
        simp [dict_find, hfound]
      simp [hnone]
    · cases hfind : dict_find m k' with
      | some w => simp [hfind, hk]
      | none => simp [hfind, hk]

/-! ## Node-mapping characterization -/

theorem build_foldl_get (ts : List NodeTable) :
    ∀ (acc : List (String × List String)) (l : String),
      dict_find (ts.foldl build_step acc) l =
        match last_single_table ts l with
        | some t => some (key_property_names t)
        | none => dict_find acc l := by
  induction ts with
  | nil => intro acc l; rfl
  | cons t ts ih =>
    intro acc l
    rw [List.foldl_cons, ih]
    cases hlast : last_single_table ts l with
    | some t' => simp [last_single_table, hlast]
    | none =>
      simp only [last_single_table, hlast]
      unfold build_step
      cases hln : t.labelNames with
      | nil => simp
      | cons a as =>
        cases as with
        | nil =>
          rw [show (match [a] with
            | [l] => dict_assign acc l (key_property_names t)
            | _ => acc) = dict_assign acc a (key_property_names t) from rfl]
          rw [dict_find_assign]
          by_cases hal : l = a
          · subst hal
            simp
          · have hal' : ¬ a = l := fun hh => hal hh.symm
            simp [hal, hal']
        | cons b bs =>
          simp

theorem last_single_table_mem (ts : List NodeTable) (l : String) :
    ∀ t, last_single_table ts l = some t → t ∈ ts ∧ t.labelNames = [l] := by
  induction ts with
  | nil => intro t h; cases h
  | cons t0 ts ih =>
    intro t h
    simp only [last_single_table] at h
    cases hlast : last_single_table ts l with
    | some t' =>
      rw [hlast] at h
      injection h with ht
      obtain ⟨hmem, hlbl⟩ := ih t' hlast
      rw [← ht]
      exact ⟨List.mem_cons_of_mem t0 hmem, hlbl⟩
    | none =>
      rw [hlast] at h
      by_cases hb : (t0.labelNames == [l]) = true
      · rw [if_pos hb] at h
        cases h
        exact ⟨List.mem_cons_self t0 ts, by simpa using hb⟩
      · rw [if_neg hb] at h
        cases h

theorem last_single_table_exists (ts : List NodeTable) (l : String) :
    1 ≤ ts.countP (fun t => t.labelNames == [l]) → ∃ t, last_single_table ts l = some t := by
  induction ts with
  | nil => intro h; simp at h
  | cons t0 ts ih =>
    intro h
    simp only [last_single_table]
    cases hlast : last_single_table ts l with
    | some t' => exact ⟨t', rfl⟩
    | none =>
      have hts : ts.countP (fun t => t.labelNames == [l]) = 0 := by
        by_contra hc
        obtain ⟨t', ht'⟩ := ih (Nat.one_le_iff_ne_zero.mpr hc)
        rw [ht'] at hlast
        cases hlast
      by_cases hb : (t0.labelNames == [l]) = true
      · exact ⟨t0, by rw [if_pos hb]⟩
      · rw [List.countP_cons, hts] at h
        simp [hb] at h

/-! ## Key-property loop characterization -/

theorem find_matching_prop_eq (ps : List PropertyDef) (kc : String) :
    find_matching_prop ps kc = ps.find? (fun p => p.valueExpressionSql == kc) := by
  induction ps with
  | nil => rfl
  | cons p ps ih =>
    by_cases hb : (p.valueExpressionSql == kc) = true
    · simp [find_matching_prop, List.find?_cons, hb]
    · have hb' : (p.valueExpressionSql == kc) = false := by
        cases hq : (p.valueExpressionSql == kc) with
        | true => exact absurd hq hb
        | false => rfl
      simp [find_matching_prop, List.find?_cons, hb', ih]

theorem key_fold_aux (defs : List PropertyDef) (l : List String) :
    ∀ acc : List String,
      l.foldl (fun acc kc =>
        match find_matching_prop defs kc with
        | some p => acc ++ [p.propertyDeclarationName]
        | none => acc) acc
      = acc ++ l.filterMap (fun kc =>
          (find_matching_prop defs kc).map (fun p => p.propertyDeclarationName)) := by
  induction l with
  | nil => intro acc; simp
  | cons kc l ih =>
    intro acc
    rw [List.foldl_cons]
    cases h : find_matching_prop defs kc with
    | some p => simp [h, ih, List.filterMap_cons]
    | none => simp [h, ih, List.filterMap_cons]

theorem key_property_names_spec (t : NodeTable) :
    key_property_names t = t.keyColumns.filterMap (fun kc =>
      (t.propertyDefinitions.find? (fun p => p.valueExpressionSql == kc)).map
        (fun p => p.propertyDeclarationName)) := by
  unfold key_property_names
  rw [key_fold_aux]
  simp [find_matching_prop_eq]

/-- A unique label resolves, through the built mapping, to the key-property
list of the single table that declares it. -/
theorem unique_label_resolves (ts : List NodeTable) (l : String)
    (h : unique_node_label ts l = true) :
    ∃ t, t ∈ ts ∧ t.labelNames = [l] ∧
      dict_find (build_node_mappings ts) l = some (key_property_names t) := by
  have hc : ts.countP (fun t => t.labelNames == [l]) = 1 := by
    simpa [unique_node_label] using h
  obtain ⟨t, ht⟩ := last_single_table_exists ts l (by omega)
  obtain ⟨hmem, hlbl⟩ := last_single_table_mem ts l t ht
  refine ⟨t, hmem, hlbl, ?_⟩
  show dict_find (ts.foldl build_step []) l = some (key_property_names t)
  rw [build_foldl_get ts [] l, ht]

/-! ## Claim theorems -/

/-- Claim C1: in every node-expansion query built by the typed
`execute_node_expansion`, the key-property literal of the `WHERE` clause is
formatted from the declared scalar type: the numeric types `INT64`, `NUMERIC`,
`FLOAT32`, `FLOAT64` and `BOOL` emit `= value` unquoted, and every other
declared type, as well as an absent declaration, emits a quoted string
literal `= "value"`. -/
theorem claim1_literal_formatting (t : Option PropertyType)
    (graph uid nm v : String) (og : Bool) :
    ((t = some .INT64 ∨ t = some .NUMERIC ∨ t = some .FLOAT32 ∨ t = some .FLOAT64 ∨
        t = some .BOOL) →
      str_contains (expansion_query_typed graph uid nm v og t)
        (" = " ++ v ++ " and ") = true)
    ∧ (t ≠ some .INT64 → t ≠ some .NUMERIC → t ≠ some .FLOAT32 → t ≠ some .FLOAT64 →
        t ≠ some .BOOL →
      str_contains (expansion_query_typed graph uid nm v og t)
        (" = " ++ ("\"" ++ v ++ "\"") ++ " and ") = true) := by
  constructor
  · intro h
    rcases h with rfl | rfl | rfl | rfl | rfl <;>
      · unfold expansion_query_typed
        exact str_contains_right _ _ _ (str_contains_chunk _ _)
  · intro h1 h2 h3 h4 h5
    cases t with
    | none =>
      unfold expansion_query_typed
      exact str_contains_right _ _ _ (str_contains_chunk _ _)
    | some pt =>
      cases pt with
      | INT64 => exact absurd rfl h1
      | NUMERIC => exact absurd rfl h2
      | FLOAT32 => exact absurd rfl h3
      | FLOAT64 => exact absurd rfl h4
      | BOOL => exact absurd rfl h5
      | BYTES =>
        unfold expansion_query_typed
        exact str_contains_right _ _ _ (str_contains_chunk _ _)
      | DATE =>
        unfold expansion_query_typed
        exact str_contains_right _ _ _ (str_contains_chunk _ _)
      | ENUM =>
        unfold expansion_query_typed
        exact str_contains_right _ _ _ (str_contains_chunk _ _)
      | STRING =>
        unfold expansion_query_typed
        exact str_contains_right _ _ _ (str_contains_chunk _ _)
      | TIMESTAMP =>
        unfold expansion_query_typed
        exact str_contains_right _ _ _ (str_contains_chunk _ _)

/-- Witness for C1 at `INT64`/`"123"` (unquoted) and at no declared type with
`"hello"` (quoted). -/
theorem claim1_witness :
    str_contains (expansion_query_typed "g" "u" "id" "123" true (some .INT64))
      (" = " ++ "123" ++ " and ") = true
    ∧ str_contains (expansion_query_typed "g" "u" "id" "hello" true none)
      (" = " ++ ("\"" ++ "hello" ++ "\"") ++ " and ") = true :=
  ⟨(claim1_literal_formatting (some .INT64) "g" "u" "id" "123" true).1 (Or.inl rfl),
   (claim1_literal_formatting none "g" "u" "id" "hello" true).2
     (by decide) (by decide) (by decide) (by decide) (by decide)⟩

/-- Counterexample to C2 as stated: the empty string is an explicitly
supplied declared-type name outside the recognized set, yet validation
rejects it with `Property type must be provided`, a message that does not
name the allowed set. -/
theorem claim2_counterexample :
    validate_property_type (some "") = .error "Property type must be provided"
    ∧ str_upper "" ∉ ["BOOL", "BYTES", "DATE", "ENUM", "INT64", "NUMERIC", "FLOAT32",
        "FLOAT64", "STRING", "TIMESTAMP"]
    ∧ str_contains "Property type must be provided" "Allowed types are:" = false :=
  ⟨rfl, by decide, by decide⟩

/-- Claim C2 (amended): a supplied non-empty declared-type name outside the
recognized set (case-insensitive) makes validation fail fast with an error
naming the allowed set, and propagates through the typed expansion flow
instead of query text; a supplied empty name also fails fast but with
`Property type must be provided`; an absent type does not fail and defaults
to quoted-string formatting. -/
theorem claim2_invalid_type_rejected (s : String) (hne : ¬ s = "")
    (hnotin : str_upper s ∉ ["BOOL", "BYTES", "DATE", "ENUM", "INT64", "NUMERIC",
      "FLOAT32", "FLOAT64", "STRING", "TIMESTAMP"]) :
    (∃ msg, validate_property_type (some s) = .error msg
      ∧ str_contains msg "Allowed types are:" = true
      ∧ ∀ graph uid nm v og,
          node_expansion_typed graph uid nm v og (some s) = .error msg)
    ∧ ∀ graph uid nm v og, ∃ q,
        node_expansion_typed graph uid nm v og none = .ok q
        ∧ str_contains q (" = " ++ ("\"" ++ v ++ "\"") ++ " and ") = true := by
  have hb : (s == "") = false := by simp [hne]
  have hfind : property_type_map.find? (fun p => p.1 == str_upper s) = none := by
    rw [List.find?_eq_none]
    intro p hp hbp
    apply hnotin
    have hps : p.1 = str_upper s := by simpa using hbp
    rw [← hps]
    simp only [property_type_map, List.mem_cons, List.not_mem_nil, or_false] at hp
    rcases hp with rfl | rfl | rfl | rfl | rfl | rfl | rfl | rfl | rfl | rfl <;> decide
  have hval : validate_property_type (some s) =
      .error ("Invalid property type: " ++ s ++
        ". Allowed types are: BOOL, BYTES, DATE, ENUM, FLOAT32, FLOAT64, INT64, NUMERIC, STRING, TIMESTAMP") := by
    simp only [validate_property_type, hb, Bool.false_eq_true, if_false, hfind,
      Option.map_none']
  constructor
  · refine ⟨_, hval, ?_, ?_⟩
    · show chars_contain ("Allowed types are:").data
        ((("Invalid property type: " ++ s) ++
          ". Allowed types are: BOOL, BYTES, DATE, ENUM, FLOAT32, FLOAT64, INT64, NUMERIC, STRING, TIMESTAMP").data) = true
      rw [str_data_append]
      exact chars_contain_append_left _ _ _ (by decide)
    · intro graph uid nm v og
      simp only [node_expansion_typed, hval]
  · intro graph uid nm v og
    refine ⟨_, rfl, ?_⟩
    unfold expansion_query_typed
    exact str_contains_right _ _ _ (str_contains_chunk _ _)

/-- Witness for amended C2 at the unrecognized name `"ARRAY"`. -/
theorem claim2_witness :
    (∃ msg, validate_property_type (some "ARRAY") = .error msg
      ∧ str_contains msg "Allowed types are:" = true
      ∧ ∀ graph uid nm v og,
          node_expansion_typed graph uid nm v og (some "ARRAY") = .error msg)
    ∧ ∀ graph uid nm v og, ∃ q,
        node_expansion_typed graph uid nm v og none = .ok q
        ∧ str_contains q (" = " ++ ("\"" ++ v ++ "\"") ++ " and ") = true :=
  claim2_invalid_type_rejected "ARRAY" (by decide) (by decide)

theorem first_node_rec_append (es1 es2 : List Envelope) (i : String) :
    first_node_rec (es1 ++ es2) i =
      match first_node_rec es1 i with
      | some n => some n
      | none => first_node_rec es2 i := by
  induction es1 with
  | nil => rfl
  | cons e es ih =>
    cases e with
    | nodeEnv n =>
      by_cases hn : n.identifier = i
      · simp [first_node_rec, List.findSome?_cons, hn]
      · simp only [List.cons_append]
        simp [first_node_rec, List.findSome?_cons, hn] at ih ⊢
        exact ih
    | edgeEnv e0 =>
      simp only [List.cons_append]
      simp [first_node_rec, List.findSome?_cons] at ih ⊢
      exact ih
    | otherEnv =>
      simp only [List.cons_append]
      simp [first_node_rec, List.findSome?_cons] at ih ⊢
      exact ih

theorem first_edge_rec_append (es1 es2 : List Envelope) (i : String) :
    first_edge_rec (es1 ++ es2) i =
      match first_edge_rec es1 i with
      | some e => some e
      | none => first_edge_rec es2 i := by
  induction es1 with
  | nil => rfl
  | cons e es ih =>
    cases e with
    | edgeEnv e0 =>
      by_cases hn : e0.identifier = i
      · simp [first_edge_rec, List.findSome?_cons, hn]
      · simp only [List.cons_append]
        simp [first_edge_rec, List.findSome?_cons, hn] at ih ⊢
        exact ih
    | nodeEnv n =>
      simp only [List.cons_append]
      simp [first_edge_rec, List.findSome?_cons] at ih ⊢
      exact ih
    | otherEnv =>
      simp only [List.cons_append]
      simp [first_edge_rec, List.findSome?_cons] at ih ⊢
      exact ih

/-- Claim C3: feeding the same node or edge envelope more than once (same
identifier, with the duplicate-free prefix condition making the shown
occurrence the first-seen one) yields exactly one entry for that identifier
in the assembled graph, carrying the first-seen record; the later duplicate
is dropped without error. -/
theorem claim3_duplicate_envelopes_deduplicated
    (pre mid post : List Envelope) (n : NodeRec) (e : EdgeRec)
    (hn : first_node_rec pre n.identifier = none)
    (he : first_edge_rec pre e.identifier = none) :
    (akeyCount (assemble_nodes (pre ++ .nodeEnv n :: (mid ++ .nodeEnv n :: post)))
        n.identifier = 1
      ∧ alookup (assemble_nodes (pre ++ .nodeEnv n :: (mid ++ .nodeEnv n :: post)))
          n.identifier = some n)
    ∧ (akeyCount (assemble_edges (pre ++ .edgeEnv e :: (mid ++ .edgeEnv e :: post)))
        e.identifier = 1
      ∧ alookup (assemble_edges (pre ++ .edgeEnv e :: (mid ++ .edgeEnv e :: post)))
          e.identifier = some e) := by
  have hfn : first_node_rec (pre ++ .nodeEnv n :: (mid ++ .nodeEnv n :: post))
      n.identifier = some n := by
    rw [first_node_rec_append pre, hn]
    show first_node_rec (.nodeEnv n :: (mid ++ .nodeEnv n :: post)) n.identifier = some n
    simp [first_node_rec, List.findSome?_cons]
  have hfe : first_edge_rec (pre ++ .edgeEnv e :: (mid ++ .edgeEnv e :: post))
      e.identifier = some e := by
    rw [first_edge_rec_append pre, he]
    show first_edge_rec (.edgeEnv e :: (mid ++ .edgeEnv e :: post)) e.identifier = some e
    simp [first_edge_rec, List.findSome?_cons]
  refine ⟨⟨?_, ?_⟩, ?_, ?_⟩
  · rw [assemble_nodes_count, hfn]
    rfl
  · rw [assemble_nodes_lookup, hfn]
  · rw [assemble_edges_count, hfe]
    rfl
  · rw [assemble_edges_lookup, hfe]

/-- Witness for C3: a node and an edge envelope each fed twice. -/
theorem claim3_witness :
    (akeyCount (assemble_nodes ([] ++ .nodeEnv ⟨"1", ["Person"], [("name", "A")]⟩ :: ([] ++
        .nodeEnv ⟨"1", ["Person"], [("name", "A")]⟩ :: []))) "1" = 1
      ∧ alookup (assemble_nodes ([] ++ .nodeEnv ⟨"1", ["Person"], [("name", "A")]⟩ :: ([] ++
          .nodeEnv ⟨"1", ["Person"], [("name", "A")]⟩ :: []))) "1" =
        some ⟨"1", ["Person"], [("name", "A")]⟩)
    ∧ (akeyCount (assemble_edges ([] ++ .edgeEnv ⟨"a", "1", "2", ["KNOWS"], []⟩ :: ([] ++
        .edgeEnv ⟨"a", "1", "2", ["KNOWS"], []⟩ :: []))) "a" = 1
      ∧ alookup (assemble_edges ([] ++ .edgeEnv ⟨"a", "1", "2", ["KNOWS"], []⟩ :: ([] ++
          .edgeEnv ⟨"a", "1", "2", ["KNOWS"], []⟩ :: []))) "a" =
        some ⟨"a", "1", "2", ["KNOWS"], []⟩) :=
  claim3_duplicate_envelopes_deduplicated [] [] []
    ⟨"1", ["Person"], [("name", "A")]⟩ ⟨"a", "1", "2", ["KNOWS"], []⟩ rfl rfl

/-- Claim C4: when two different node-table declarations each list the same
label as their sole label, that label is not in the unique-label set and a
key lookup for a node carrying only that label returns the empty sequence —
regardless of the tables' key columns. -/
theorem claim4_duplicate_label_excluded (ts : List NodeTable) (l : String)
    (h : 2 ≤ ts.countP (fun t => t.labelNames == [l])) :
    unique_node_label ts l = false
    ∧ ∀ n : Node, n.labels = [l] → get_key_property_names ts (.gnode n) = .ok [] := by
  have hu : unique_node_label ts l = false := by
    have hne : ts.countP (fun t => t.labelNames == [l]) ≠ 1 := by omega
    unfold unique_node_label
    simpa using hne
  refine ⟨hu, ?_⟩
  intro n hl
  simp [get_key_property_names, hl, hu]

/-- Witness for C4: two tables with identical key columns both declaring
`Person` as sole label. -/
theorem claim4_witness :
    unique_node_label [⟨["Person"], ["id"], [⟨"id", "id"⟩]⟩,
        ⟨["Person"], ["id"], [⟨"id", "id"⟩]⟩] "Person" = false
    ∧ get_key_property_names [⟨["Person"], ["id"], [⟨"id", "id"⟩]⟩,
        ⟨["Person"], ["id"], [⟨"id", "id"⟩]⟩] (.gnode ⟨["Person"], []⟩) = .ok [] := by
  have h := claim4_duplicate_label_excluded
    [⟨["Person"], ["id"], [⟨"id", "id"⟩]⟩, ⟨["Person"], ["id"], [⟨"id", "id"⟩]⟩]
    "Person" (by decide)
  exact ⟨h.1, h.2 ⟨["Person"], []⟩ rfl⟩

/-- Claim C5: the key lookup returns the unique label's key-property list for
a single-label node with a unique label, the empty sequence for every other
node (no labels, several labels, or a non-unique label), and a
`TypeError`-style failure for a non-node input. -/
theorem claim5_lookup_cases (ts : List NodeTable) :
    (∀ (n : Node) (l : String), n.labels = [l] → unique_node_label ts l = true →
      ∃ t, t ∈ ts ∧ t.labelNames = [l] ∧
        get_key_property_names ts (.gnode n) = .ok (key_property_names t))
    ∧ (∀ n : Node, n.labels = [] → get_key_property_names ts (.gnode n) = .ok [])
    ∧ (∀ (n : Node) (l1 l2 : String) (rest : List String), n.labels = l1 :: l2 :: rest →
        get_key_property_names ts (.gnode n) = .ok [])
    ∧ (∀ (n : Node) (l : String), n.labels = [l] → unique_node_label ts l = false →
        get_key_property_names ts (.gnode n) = .ok [])
    ∧ (∀ e : Edge, get_key_property_names ts (.gedge e) = .error "node expected") := by
  refine ⟨?_, ?_, ?_, ?_, ?_⟩
  · intro n l hl hu
    obtain ⟨t, hmem, hlbl, hfind⟩ := unique_label_resolves ts l hu
    refine ⟨t, hmem, hlbl, ?_⟩
    simp [get_key_property_names, hl, hu, hfind]
  · intro n hl
    simp [get_key_property_names, hl]
  · intro n l1 l2 rest hl
    simp [get_key_property_names, hl]
  · intro n l hl hu
    simp [get_key_property_names, hl, hu]
  · intro e
    rfl

/-- Witness for C5: a one-table schema, exercised at a unique single-label
node, a label-free node and an edge input. -/
theorem claim5_witness :
    (∃ t, t ∈ [(⟨["Person"], ["id"], [⟨"id", "id"⟩]⟩ : NodeTable)]
      ∧ t.labelNames = ["Person"]
      ∧ get_key_property_names [⟨["Person"], ["id"], [⟨"id", "id"⟩]⟩]
          (.gnode ⟨["Person"], []⟩) = .ok (key_property_names t))
    ∧ get_key_property_names [⟨["Person"], ["id"], [⟨"id", "id"⟩]⟩]
        (.gnode ⟨[], []⟩) = .ok []
    ∧ get_key_property_names [⟨["Person"], ["id"], [⟨"id", "id"⟩]⟩]
        (.gedge ⟨[], [], "s", "d"⟩) = .error "node expected" :=
  ⟨(claim5_lookup_cases [⟨["Person"], ["id"], [⟨"id", "id"⟩]⟩]).1
      ⟨["Person"], []⟩ "Person" rfl (by decide),
   (claim5_lookup_cases [⟨["Person"], ["id"], [⟨"id", "id"⟩]⟩]).2.1 ⟨[], []⟩ rfl,
   (claim5_lookup_cases [⟨["Person"], ["id"], [⟨"id", "id"⟩]⟩]).2.2.2.2 ⟨[], [], "s", "d"⟩⟩

/-- Claim C6: the traversal direction determines the path-pattern shape of
the query built by `execute_node_expansion`: outgoing yields
`(n)-[e]->(d)` in the `MATCH` clause and incoming yields `(n)<-[e]-(d)`. -/
theorem claim6_direction_pattern (graph uid nm v : String) :
    str_contains (expansion_query graph uid nm v true) "(n)-[e]->(d)" = true
    ∧ str_contains (expansion_query graph uid nm v false) "(n)<-[e]-(d)" = true
    ∧ path_pattern true = "(n)-[e]->(d)" ∧ path_pattern false = "(n)<-[e]-(d)" := by
  refine ⟨?_, ?_, rfl, rfl⟩
  · unfold expansion_query
    exact str_contains_right _ _ _ (str_contains_chunk _ _)
  · unfold expansion_query
    exact str_contains_right _ _ _ (str_contains_chunk _ _)

/-- Claim C7: for an eligible single-label table, the key-property sequence
is, in key-column order, the declaration name of the first property
definition whose storage expression equals the key column; a key column with
no match is silently omitted. -/
theorem claim7_key_columns_matched (t : NodeTable) (l : String)
    (_h : t.labelNames = [l]) :
    key_property_names t = t.keyColumns.filterMap (fun kc =>
      (t.propertyDefinitions.find? (fun p => p.valueExpressionSql == kc)).map
        (fun p => p.propertyDeclarationName)) :=
  key_property_names_spec t

/-- Witness for C7: a table whose second key column has no matching property
definition; the column is dropped from the key-property sequence. -/
theorem claim7_witness :
    key_property_names (⟨["Person"], ["id", "ghost"], [⟨"id", "id"⟩]⟩ : NodeTable) =
      (["id", "ghost"].filterMap (fun kc =>
        (([⟨"id", "id"⟩] : List PropertyDef).find?
          (fun p => p.valueExpressionSql == kc)).map
          (fun p => p.propertyDeclarationName)))
    ∧ key_property_names (⟨["Person"], ["id", "ghost"], [⟨"id", "id"⟩]⟩ : NodeTable) =
        ["id"] :=
  ⟨claim7_key_columns_matched ⟨["Person"], ["id", "ghost"], [⟨"id", "id"⟩]⟩ "Person" rfl,
   by decide⟩

theorem missing_field_nonempty (d : ExpansionRequest) (fld : String × Option String)
    (hmem : fld ∈ [("project", d.project), ("instance", d.instanceName),
      ("database", d.database), ("graph", d.graph), ("uid", d.uid),
      ("node_key_property_name", d.node_key_property_name),
      ("node_key_property_value", d.node_key_property_value),
      ("direction", d.direction)])
    (hnone : fld.2 = none) : missing_fields d ≠ [] := by
  intro hnil
  have hin : fld.1 ∈ missing_fields d := by
    unfold missing_fields
    exact List.mem_filterMap.mpr ⟨fld, hmem, by simp [hnone]⟩
  rw [hnil] at hin
  cases hin

/-- Claim C8: a node-expansion request with a missing required field, or a
direction other than `INCOMING`/`OUTGOING`, is answered by the handler with a
structured `{error: ...}` payload, and no query is built or executed. -/
theorem claim8_request_validation (d : ExpansionRequest)
    (h : d.project = none ∨ d.instanceName = none ∨ d.database = none ∨ d.graph = none ∨
      d.uid = none ∨ d.node_key_property_name = none ∨ d.node_key_property_value = none ∨
      d.direction = none ∨
      ∃ dir, d.direction = some dir ∧ ¬ dir = "INCOMING" ∧ ¬ dir = "OUTGOING") :
    ∃ msg, handle_post_node_expansion d = .errorResponse msg
      ∧ ∀ q, handle_post_node_expansion d ≠ .dataResponse q := by
  by_cases hm : missing_fields d = []
  · have hmnil := hm
    rcases h with h | h | h | h | h | h | h | h | h
    · exact absurd hmnil (missing_field_nonempty d ("project", d.project) (by simp) h)
    · exact absurd hmnil (missing_field_nonempty d ("instance", d.instanceName) (by simp) h)
    · exact absurd hmnil (missing_field_nonempty d ("database", d.database) (by simp) h)
    · exact absurd hmnil (missing_field_nonempty d ("graph", d.graph) (by simp) h)
    · exact absurd hmnil (missing_field_nonempty d ("uid", d.uid) (by simp) h)
    · exact absurd hmnil
        (missing_field_nonempty d ("node_key_property_name", d.node_key_property_name)
          (by simp) h)
    · exact absurd hmnil
        (missing_field_nonempty d ("node_key_property_value", d.node_key_property_value)
          (by simp) h)
    · exact absurd hmnil (missing_field_nonempty d ("direction", d.direction) (by simp) h)
    · obtain ⟨dir, hdir, hin, hout⟩ := h
      have hres : handle_post_node_expansion d =
          .errorResponse ("Invalid direction: must be INCOMING or OUTGOING, got \"" ++
            dir ++ "\"") := by
        unfold handle_post_node_expansion
        rw [hmnil, hdir]
        simp [hin, hout]
      refine ⟨_, hres, ?_⟩
      intro q
      rw [hres]
      intro hc
      cases hc
  · have hfalse : (missing_fields d).isEmpty = false := by
      cases hq : missing_fields d with
      | nil => exact absurd hq hm
      | cons a as => rfl
    have hres : handle_post_node_expansion d =
        .errorResponse ("Missing required fields: " ++
          String.intercalate ", " (missing_fields d)) := by
      unfold handle_post_node_expansion
      rw [hfalse]
      rfl
    refine ⟨_, hres, ?_⟩
    intro q
    rw [hres]
    intro hc
    cases hc

/-- Witness for C8: a request without a project and a request with direction
`"SIDEWAYS"`. -/
theorem claim8_witness :
    (∃ msg, handle_post_node_expansion
        ⟨none, some "i", some "db", some "g", some "u", some "k", some "v",
          some "OUTGOING"⟩ = .errorResponse msg
      ∧ ∀ q, handle_post_node_expansion
          ⟨none, some "i", some "db", some "g", some "u", some "k", some "v",
            some "OUTGOING"⟩ ≠ .dataResponse q)
    ∧ (∃ msg, handle_post_node_expansion
        ⟨some "p", some "i", some "db", some "g", some "u", some "k", some "v",
          some "SIDEWAYS"⟩ = .errorResponse msg
      ∧ ∀ q, handle_post_node_expansion
          ⟨some "p", some "i", some "db", some "g", some "u", some "k", some "v",
            some "SIDEWAYS"⟩ ≠ .dataResponse q) :=
  ⟨claim8_request_validation _ (Or.inl rfl),
   claim8_request_validation _ (Or.inr (Or.inr (Or.inr (Or.inr (Or.inr (Or.inr (Or.inr
     (Or.inr ⟨"SIDEWAYS", rfl, by decide, by decide⟩))))))))⟩

/-- Claim C9: a POST whose path matches none of the registered routes makes
`do_POST` subscript the `endpoints` dictionary at the absent key
`post_node_expansion_single_edge`, raising a `KeyError` instead of producing
a response; consequently the single-edge handler is unreachable through the
dispatcher. -/
theorem claim9_dispatch_keyerror (path : String)
    (h1 : ¬ path = "/post_ping") (h2 : ¬ path = "/post_query")
    (h3 : ¬ path = "/post_node_expansion") :
    do_POST path = .error "KeyError: post_node_expansion_single_edge"
    ∧ ∀ p : String, do_POST p ≠ .ok .nodeExpansionSingleEdge := by
  have key : ∀ p : String, ¬ p = "/post_ping" → ¬ p = "/post_query" →
      ¬ p = "/post_node_expansion" →
      do_POST p = .error "KeyError: post_node_expansion_single_edge" := by
    intro p hp1 hp2 hp3
    have e1 : dict_subscript endpoints "post_ping" = .ok "/post_ping" := rfl
    have e2 : dict_subscript endpoints "post_query" = .ok "/post_query" := rfl
    have e3 : dict_subscript endpoints "post_node_expansion" =
      .ok "/post_node_expansion" := rfl
    have e4 : dict_subscript endpoints "post_node_expansion_single_edge" =
      .error "KeyError: post_node_expansion_single_edge" := rfl
    unfold do_POST
    rw [e1, e2, e3, e4]
    simp [hp1, hp2, hp3]
  refine ⟨key path h1 h2 h3, ?_⟩
  intro p
  by_cases hp1 : p = "/post_ping"
  · subst hp1
    have : do_POST "/post_ping" = .ok .ping := rfl
    rw [this]
    intro hc
    cases hc
  · by_cases hp2 : p = "/post_query"
    · subst hp2
      have : do_POST "/post_query" = .ok .query := rfl
      rw [this]
      intro hc
      cases hc
    · by_cases hp3 : p = "/post_node_expansion"
      · subst hp3
        have : do_POST "/post_node_expansion" = .ok .nodeExpansion := rfl
        rw [this]
        intro hc
        cases hc
      · rw [key p hp1 hp2 hp3]
        intro hc
        cases hc

/-- Witness for C9 at the very path the dead handler would serve. -/
theorem claim9_witness :
    do_POST "/post_node_expansion_single_edge" =
      .error "KeyError: post_node_expansion_single_edge"
    ∧ ∀ p : String, do_POST p ≠ .ok .nodeExpansionSingleEdge :=
  claim9_dispatch_keyerror "/post_node_expansion_single_edge"
    (by decide) (by decide) (by decide)

/-- Claim C10: every unique label is a key of the built label-to-key-property
mapping, its entry is the list built from the single table declaring it, and
a lookup for a single-label node with that label returns exactly that list —
never the empty-list default. -/
theorem claim10_unique_label_mapped (ts : List NodeTable) (l : String)
    (h : unique_node_label ts l = true) :
    (∃ props, dict_find (build_node_mappings ts) l = some props)
    ∧ ∃ t, t ∈ ts ∧ t.labelNames = [l]
        ∧ dict_find (build_node_mappings ts) l = some (key_property_names t)
        ∧ ∀ n : Node, n.labels = [l] →
            get_key_property_names ts (.gnode n) = .ok (key_property_names t) := by
  obtain ⟨t, hmem, hlbl, hfind⟩ := unique_label_resolves ts l h
  refine ⟨⟨_, hfind⟩, t, hmem, hlbl, hfind, ?_⟩
  intro n hl
  simp [get_key_property_names, hl, h, hfind]

/-- Witness for C10: a two-table schema where only `Person` is unique. -/
theorem claim10_witness :
    (∃ props, dict_find (build_node_mappings
        [⟨["Person"], ["id"], [⟨"id", "id"⟩]⟩, ⟨["City", "Place"], [], []⟩])
        "Person" = some props)
    ∧ ∃ t, t ∈ [(⟨["Person"], ["id"], [⟨"id", "id"⟩]⟩ : NodeTable),
          ⟨["City", "Place"], [], []⟩]
        ∧ t.labelNames = ["Person"]
        ∧ dict_find (build_node_mappings
            [⟨["Person"], ["id"], [⟨"id", "id"⟩]⟩, ⟨["City", "Place"], [], []⟩])
            "Person" = some (key_property_names t)
        ∧ ∀ n : Node, n.labels = ["Person"] →
            get_key_property_names
              [⟨["Person"], ["id"], [⟨"id", "id"⟩]⟩, ⟨["City", "Place"], [], []⟩]
              (.gnode n) = .ok (key_property_names t) :=
  claim10_unique_label_mapped
    [⟨["Person"], ["id"], [⟨"id", "id"⟩]⟩, ⟨["City", "Place"], [], []⟩]
    "Person" (by decide)

end SpannerGraphs
